import Mathlib

/-!
# Verification of `src/resources/files.ts`

A shallow embedding of the file-resource provider of this repository:
`FileResource` (its constructor-initialized fields, `getMimeType`, and
`handler`), `listFiles`, and `createFileResources`.

Remote effects (the Octokit client library calls and Node's
`Buffer.from(_, "base64").toString("utf-8")` decoder) are external
collaborators; they are modelled as oracle inputs: each remote call is a
function producing `Except String _` (an `error` models a thrown JS
exception carrying its message), and the base64/utf-8 decoder is a
`String → String` parameter. Theorems quantify over every oracle, i.e.
over every outcome of the remote calls.

JavaScript string values are `String`; optional JS values
(`string | undefined`) are `Option String`; truthiness of an optional
string (`!x` in JS) is `strTruthy`.
-/

namespace FilesTs

/-- JS `String.prototype.split(sep)` on a character list: splits on every
occurrence of `sep`, keeping empty segments, always returning at least one
segment (as JS `split` does). -/
def splitOnSep (sep : Char) : List Char → List (List Char)
  | [] => [[]]
  | c :: cs =>
    match splitOnSep sep cs with
    | [] => [[]]
    | h :: t => if c = sep then [] :: h :: t else (c :: h) :: t

/-- JS `s.split(sep)` for a one-character separator, on `String`. -/
def jsSplit (sep : Char) (s : String) : List String :=
  (splitOnSep sep s.data).map List.asString

/-- JS `s.toLowerCase()`: character-wise lower-casing (the extension table
keys are ASCII, where JS and `Char.toLower` agree). -/
def jsToLower (s : String) : String := List.asString (s.data.map Char.toLower)

/-- JS truthiness of a `string | undefined` value: `undefined` and `""` are
falsy, every other string is truthy. -/
def strTruthy : Option String → Bool
  | none => false
  | some s => s ≠ ""

/-- The fixed extension table of `FileResource.getMimeType`
(`files.ts` lines 126–154), as a partial lookup. -/
def mimeTypes : String → Option String
  | "js" => some "text/javascript"
  | "ts" => some "text/typescript"
  | "jsx" => some "text/jsx"
  | "tsx" => some "text/tsx"
  | "json" => some "application/json"
  | "md" => some "text/markdown"
  | "txt" => some "text/plain"
  | "html" => some "text/html"
  | "css" => some "text/css"
  | "py" => some "text/x-python"
  | "java" => some "text/x-java"
  | "c" => some "text/x-c"
  | "cpp" => some "text/x-c++"
  | "rs" => some "text/x-rust"
  | "go" => some "text/x-go"
  | "rb" => some "text/x-ruby"
  | "php" => some "text/x-php"
  | "sh" => some "text/x-shellscript"
  | "yaml" => some "text/yaml"
  | "yml" => some "text/yaml"
  | "xml" => some "text/xml"
  | "svg" => some "image/svg+xml"
  | "png" => some "image/png"
  | "jpg" => some "image/jpeg"
  | "jpeg" => some "image/jpeg"
  | "gif" => some "image/gif"
  | "pdf" => some "application/pdf"
  | _ => none

/-- `FileResource.getMimeType` (`files.ts` lines 124–157):
`const ext = filename.split(".").pop()?.toLowerCase();`
`return mimeTypes[ext || ""] || "application/octet-stream";`
(`pop()` on the result of `split` is `getLast?`; it is `undefined` only on an
empty array, and `x || y` on strings falls through on `undefined` or `""`.) -/
def getMimeType (filename : String) : String :=
  let ext : Option String := ((jsSplit '.' filename).getLast?).map jsToLower
  let ext' := ext.getD ""
  match mimeTypes ext' with
  | some m => if m = "" then "application/octet-stream" else m
  | none => "application/octet-stream"

/-- The state of a `FileResource` after its constructor
(`files.ts` lines 62–76) ran: the six constructor arguments. -/
structure FileResource where
  accessToken : String
  owner : String
  repo : String
  filePath : String
  fileName : String
  fileSize : Nat
  deriving DecidableEq

/-- `this.name = filePath`. -/
def FileResource.name (r : FileResource) : String := r.filePath

/-- ``this.uri = `github://file/${filePath}` ``. -/
def FileResource.uri (r : FileResource) : String := "github://file/" ++ r.filePath

/-- `this.title = fileName`. -/
def FileResource.title (r : FileResource) : String := r.fileName

/-- ``this.description = `File: ${filePath} (${fileSize} bytes)` ``. -/
def FileResource.description (r : FileResource) : String :=
  "File: " ++ r.filePath ++ " (" ++ toString r.fileSize ++ " bytes)"

/-- `this.size = fileSize`. -/
def FileResource.size (r : FileResource) : Nat := r.fileSize

/-- `get mimeType()` (`files.ts` lines 78–80). -/
def FileResource.mimeType (r : FileResource) : String := getMimeType r.fileName

/-- The `data` of an `octokit.rest.repos.getContent` response: either an
array (a directory listing, `Array.isArray(data)` true) or a single object
with a `type` tag and an optional base64 `content` body. -/
inductive ContentData where
  | dir (entries : List String)
  | single (type : String) (content : Option String)

/-- `repos.get` response data: carries `default_branch`. -/
structure RepoInfo where
  default_branch : String

/-- The `object` of a `git.getRef` response. -/
structure RefObject where
  sha : String

/-- `git.getRef` response data. -/
structure RefData where
  object : RefObject

/-- The `tree` of a `git.getCommit` response. -/
structure CommitTree where
  sha : String

/-- `git.getCommit` response data. -/
structure CommitData where
  tree : CommitTree

/-- One entry of a `git.getTree` response: a `type` tag
(`"blob"`, `"tree"`, `"commit"`, ...), an optional `path`, and an
optional `size`. -/
structure TreeItem where
  type : String
  path : Option String
  size : Option Nat
  deriving DecidableEq

/-- `git.getTree` response data. -/
structure TreeData where
  tree : List TreeItem

/-- Oracle model of an Octokit client: every remote call this file issues,
as a function of its arguments to a thrown-or-returned outcome. -/
structure Octokit where
  reposGet : String → String → Except String RepoInfo
  reposGetContent : String → String → String → Except String ContentData
  gitGetRef : String → String → String → Except String RefData
  gitGetCommit : String → String → String → Except String CommitData
  gitGetTree : String → String → String → Except String TreeData

/-- One content record of a handler result (the element type of `contents`
in the `IMCPResource.handler` return type, `files.ts` lines 40–49). -/
structure ContentRecord where
  uri : String
  text : String
  mimeType : Option String
  title : Option String
  description : Option String
  size : Option Nat
  deriving DecidableEq

/-- A handler result: `{ contents: [...] }`. -/
structure HandlerResult where
  contents : List ContentRecord
  deriving DecidableEq

/-- `FileResource.handler` (`files.ts` lines 82–122). `newOctokit` models the
`Octokit` constructor applied to the auth token; `decode` models
`Buffer.from(_, "base64").toString("utf-8")`; `uri` is the `uri.href` of the
requested URL. The outer `catch` wraps any thrown error (a failed
`getContent` call, or the `Path ... is not a file` error thrown in the
`else` branch) into `Failed to read file: <message>`. -/
def FileResource.handler (newOctokit : String → Octokit) (decode : String → String)
    (r : FileResource) (uri : String) : Except String HandlerResult :=
  let octokit := newOctokit r.accessToken
  let wrap : String → Except String HandlerResult :=
    fun msg => Except.error ("Failed to read file: " ++ msg)
  match octokit.reposGetContent r.owner r.repo r.filePath with
  | Except.error e => wrap e
  | Except.ok data =>
    match data with
    | ContentData.single ty content =>
      if ty = "file" then
        Except.ok
          { contents := [{ uri := uri, text := decode (content.getD ""),
                           mimeType := some r.mimeType, title := some r.fileName,
                           description := none, size := some r.fileSize }] }
      else wrap ("Path " ++ r.filePath ++ " is not a file")
    | ContentData.dir _ => wrap ("Path " ++ r.filePath ++ " is not a file")

/-- One element of the list `listFiles` returns:
`{ path: string; name: string; size: number }`. -/
structure FileEntry where
  path : String
  name : String
  size : Nat
  deriving DecidableEq

/-- `item.path.split("/")?.pop() ?? "unknown"` (`files.ts` line 268). -/
def itemName (p : String) : String :=
  ((jsSplit '/' p).getLast?).getD "unknown"

/-- The filter+map at the end of `listFiles` (`files.ts` lines 264–270):
`tree.tree.filter((item) => item.type === "blob" && item.path).map(...)`.
After the filter, `item.path` is a defined, non-empty string (its `getD ""`
here is only a totalization); `item.size || 0` is `size.getD 0` since a
reported size of `0` and an unreported size both yield `0`. -/
def processTree (items : List TreeItem) : List FileEntry :=
  (items.filter fun it => it.type == "blob" && strTruthy it.path).map fun it =>
    { path := it.path.getD ""
      name := itemName (it.path.getD "")
      size := it.size.getD 0 }

/-- `listFiles` (`files.ts` lines 223–275). Its `catch` logs the error and
rethrows it unchanged, so its outcome equals the try-block's outcome. -/
def listFiles (octokit : Octokit) (owner repo : String) (branch : Option String) :
    Except String (List FileEntry) := do
  let targetBranch ←
    if strTruthy branch then pure (branch.getD "")
    else do
      let repoInfo ← octokit.reposGet owner repo
      pure repoInfo.default_branch
  let ref ← octokit.gitGetRef owner repo ("heads/" ++ targetBranch)
  let commit ← octokit.gitGetCommit owner repo ref.object.sha
  let treeData ← octokit.gitGetTree owner repo commit.tree.sha
  pure (processTree treeData.tree)

/-- The environment bindings `createFileResources` reads. -/
structure Env where
  SOURCE_REPOSITORY_NAME : Option String
  BRANCH_NAME : Option String

/-- The regex match `SOURCE_REPOSITORY_NAME.match(/^([^/]+)\/([^/]+)$/)`
(`files.ts` line 178): succeeds exactly when the string is
`owner ++ "/" ++ repo` with both sides non-empty and slash-free, i.e. when
splitting on `/` yields exactly two non-empty segments. -/
def repoMatch (s : String) : Option (String × String) :=
  match jsSplit '/' s with
  | [owner, repo] => if owner ≠ "" ∧ repo ≠ "" then some (owner, repo) else none
  | _ => none

/-- The `try` block of `createFileResources` (`files.ts` lines 170–213):
validation `return []`s are `ok []`; a thrown remote error is `error`. -/
def createFileResourcesBody (newOctokit : String → Octokit) (accessToken : String)
    (env : Env) : Except String (List FileResource) :=
  if ¬ strTruthy env.SOURCE_REPOSITORY_NAME then Except.ok []
  else
    match repoMatch (env.SOURCE_REPOSITORY_NAME.getD "") with
    | none => Except.ok []
    | some (owner, repo) => do
      let octokit := newOctokit accessToken
      let files ← listFiles octokit owner repo env.BRANCH_NAME
      if files.length = 0 then pure []
      else
        pure (files.map fun file =>
          { accessToken := accessToken, owner := owner, repo := repo,
            filePath := file.path, fileName := file.name, fileSize := file.size })

/-- `createFileResources` (`files.ts` lines 166–218): the `try` block wrapped
in the outer `catch`, which logs and returns `[]`. -/
def createFileResources (newOctokit : String → Octokit) (accessToken : String)
    (env : Env) : List FileResource :=
  match createFileResourcesBody newOctokit accessToken env with
  | Except.ok l => l
  | Except.error _ => []

/-! ## Concrete fixtures used by witnesses and counterexamples -/

/-- An Octokit oracle whose every remote call throws a network error. -/
def failingOctokit : Octokit where
  reposGet := fun _ _ => Except.error "network error"
  reposGetContent := fun _ _ _ => Except.error "network error"
  gitGetRef := fun _ _ _ => Except.error "network error"
  gitGetCommit := fun _ _ _ => Except.error "network error"
  gitGetTree := fun _ _ _ => Except.error "network error"

/-- An `Octokit` constructor model returning the failing oracle. -/
def failingNewOctokit : String → Octokit := fun _ => failingOctokit

/-- A sample descriptor for concrete evaluations. -/
def sampleResource : FileResource :=
  { accessToken := "tok", owner := "o", repo := "r",
    filePath := "a.txt", fileName := "a.txt", fileSize := 5 }

/-- An oracle whose `getContent` returns a single file with no `content`
field. -/
def fileNoContentOctokit : Octokit :=
  { failingOctokit with
    reposGetContent := fun _ _ _ => Except.ok (ContentData.single "file" none) }

/-- An `Octokit` constructor model returning `fileNoContentOctokit`. -/
def fileNoContentNewOctokit : String → Octokit := fun _ => fileNoContentOctokit

/-- An oracle whose `getContent` returns a single file with a body. -/
def fileContentOctokit : Octokit :=
  { failingOctokit with
    reposGetContent := fun _ _ _ =>
      Except.ok (ContentData.single "file" (some "aGVsbG8=")) }

/-- An `Octokit` constructor model returning `fileContentOctokit`. -/
def fileContentNewOctokit : String → Octokit := fun _ => fileContentOctokit

/-- A decoder oracle that is the identity (in particular it maps `""` to
`""`, as Node's base64/utf-8 decode does). -/
def idDecode : String → String := fun s => s

/-- A decoder oracle returning a fixed short text. -/
def hiDecode : String → String := fun _ => "hi"

/-- An environment with a well-formed repository identifier. -/
def envValid : Env := { SOURCE_REPOSITORY_NAME := some "o/r", BRANCH_NAME := none }

/-- An environment whose repository identifier has two separators. -/
def envMultiSlash : Env :=
  { SOURCE_REPOSITORY_NAME := some "a/b/c", BRANCH_NAME := none }

/-- The handler result for `sampleResource` against `fileContentOctokit`
with the identity decoder. -/
def sampleHandlerResult : HandlerResult :=
  { contents := [{ uri := "u", text := "aGVsbG8=",
                   mimeType := some "text/plain", title := some "a.txt",
                   description := none, size := some 5 }] }

/-- The content record for `sampleResource` against `fileNoContentOctokit`
with the identity decoder. -/
def sampleRecord : ContentRecord :=
  { uri := "u", text := "", mimeType := some "text/plain",
    title := some "a.txt", description := none, size := some 5 }

/-! ## Helper lemmas on `splitOnSep` -/

theorem splitOnSep_ne_nil (sep : Char) (l : List Char) : splitOnSep sep l ≠ [] := by
  cases l with
  | nil => simp [splitOnSep]
  | cons c cs =>
    simp only [splitOnSep]
    cases h : splitOnSep sep cs with
    | nil => simp
    | cons h t =>
      by_cases hc : c = sep <;> simp [hc]

theorem splitOnSep_append (sep : Char) (l r : List Char) :
    splitOnSep sep (l ++ sep :: r) = splitOnSep sep l ++ splitOnSep sep r := by
  induction l with
  | nil =>
    simp only [List.nil_append, splitOnSep]
    cases h : splitOnSep sep r with
    | nil => exact absurd h (splitOnSep_ne_nil sep r)
    | cons a t => simp
  | cons c cs ih =>
    simp only [List.cons_append, splitOnSep, ih]
    cases h : splitOnSep sep cs with
    | nil => exact absurd h (splitOnSep_ne_nil sep cs)
    | cons h' t' =>
      by_cases hc : c = sep <;> simp [hc, ih, h]

theorem splitOnSep_not_mem (sep : Char) (l : List Char) (h : sep ∉ l) :
    splitOnSep sep l = [l] := by
  induction l with
  | nil => rfl
  | cons c cs ih =>
    have hc : c ≠ sep := fun hcc => h (hcc ▸ List.mem_cons_self c cs)
    have hcs : sep ∉ cs := fun hm => h (List.mem_cons_of_mem c hm)
    simp only [splitOnSep, ih hcs]
    simp [hc]

theorem splitOnSep_append_length (sep : Char) (l r : List Char) :
    2 ≤ (splitOnSep sep (l ++ sep :: r)).length := by
  induction l with
  | nil =>
    simp only [List.nil_append, splitOnSep]
    cases h : splitOnSep sep r with
    | nil => exact absurd h (splitOnSep_ne_nil sep r)
    | cons a t => simp
  | cons c cs ih =>
    simp only [List.cons_append, splitOnSep]
    cases h : splitOnSep sep (cs ++ sep :: r) with
    | nil => exact absurd h (splitOnSep_ne_nil sep _)
    | cons a t =>
      rw [h] at ih
      by_cases hc : c = sep <;> simp [hc] <;> simpa using ih

theorem splitOnSep_append_getLast? (sep : Char) (l r : List Char) :
    (splitOnSep sep (l ++ sep :: r)).getLast? = (splitOnSep sep r).getLast? := by
  induction l with
  | nil =>
    simp only [List.nil_append, splitOnSep]
    cases h : splitOnSep sep r with
    | nil => exact absurd h (splitOnSep_ne_nil sep r)
    | cons a t => simp [List.getLast?_cons_cons]
  | cons c cs ih =>
    simp only [List.cons_append, splitOnSep]
    cases h : splitOnSep sep (cs ++ sep :: r) with
    | nil => exact absurd h (splitOnSep_ne_nil sep _)
    | cons a t =>
      have hlen : 2 ≤ (splitOnSep sep (cs ++ sep :: r)).length :=
        splitOnSep_append_length sep cs r
      rw [h] at hlen ih
      cases t with
      | nil => simp at hlen
      | cons b t' =>
        by_cases hc : c = sep
        · simpa [hc, List.getLast?_cons_cons] using ih
        · simpa [hc, List.getLast?_cons_cons] using ih

theorem splitOnSep_getLast?_suffix (sep : Char) (l r : List Char) (h : sep ∉ r) :
    (splitOnSep sep (l ++ sep :: r)).getLast? = some r := by
  rw [splitOnSep_append_getLast?, splitOnSep_not_mem sep r h]
  rfl

theorem string_data_append (a b : String) : (a ++ b).data = a.data ++ b.data := by
  cases a; cases b; rfl

theorem asString_data (s : String) : List.asString s.data = s :=
  String.asString_toList s

theorem jsSplit_getLast?_suffix (sep : Char) (a b : String) (sepStr : String)
    (hsep : sepStr.data = [sep]) (h : sep ∉ b.data) :
    (jsSplit sep (a ++ sepStr ++ b)).getLast? = some b := by
  have hdata : (a ++ sepStr ++ b).data = a.data ++ sep :: b.data := by
    rw [string_data_append, string_data_append, hsep]
    simp
  unfold jsSplit
  rw [hdata, List.getLast?_map, splitOnSep_getLast?_suffix sep _ _ h]
  simp [Option.map]
  exact String.asString_toList b

theorem jsSplit_getLast?_no_sep (sep : Char) (s : String) (h : sep ∉ s.data) :
    (jsSplit sep s).getLast? = some s := by
  unfold jsSplit
  rw [List.getLast?_map, splitOnSep_not_mem sep _ h]
  simp [Option.map]
  exact String.asString_toList s

theorem jsSplit_getLast?_isSome (sep : Char) (s : String) :
    ∃ seg, (jsSplit sep s).getLast? = some seg := by
  unfold jsSplit
  rw [List.getLast?_map]
  cases h : (splitOnSep sep s.data).getLast? with
  | none =>
    exact absurd (List.getLast?_eq_none_iff.mp h) (splitOnSep_ne_nil sep s.data)
  | some a => exact ⟨a.asString, rfl⟩

/-! ## Helper lemmas on the embedded operations -/

theorem mimeTypes_ne_empty (s m : String) (h : mimeTypes s = some m) : m ≠ "" := by
  unfold mimeTypes at h
  split at h <;> cases h <;> decide

theorem getMimeType_of_getLast? (f e : String)
    (h : (jsSplit '.' f).getLast? = some e) :
    getMimeType f = (mimeTypes (jsToLower e)).getD "application/octet-stream" := by
  unfold getMimeType
  rw [h]
  cases hm : mimeTypes (jsToLower e) with
  | none => simp [hm]
  | some m => simp [hm, mimeTypes_ne_empty _ m hm]

theorem itemName_suffix (a c : String) (h : '/' ∉ c.data) :
    itemName (a ++ "/" ++ c) = c := by
  simp [itemName, jsSplit_getLast?_suffix '/' a c "/" rfl h]

theorem repoMatch_none_of_length (s : String)
    (h : (jsSplit '/' s).length ≠ 2) : repoMatch s = none := by
  unfold repoMatch
  cases hs : jsSplit '/' s with
  | nil => rfl
  | cons a t =>
    cases t with
    | nil => rfl
    | cons b t' =>
      cases t' with
      | nil => rw [hs] at h; simp at h
      | cons c t'' => rfl

theorem createFileResources_of_repoMatch_none
    (no : String → Octokit) (tok : String) (env : Env)
    (h : repoMatch (env.SOURCE_REPOSITORY_NAME.getD "") = none) :
    createFileResources no tok env = [] := by
  unfold createFileResources createFileResourcesBody
  by_cases ht : strTruthy env.SOURCE_REPOSITORY_NAME
  · simp [ht, h]
  · simp [ht]

theorem handler_ok_inv (no : String → Octokit) (decode : String → String)
    (r : FileResource) (uri : String) (res : HandlerResult)
    (h : FileResource.handler no decode r uri = Except.ok res) :
    ∃ ct, (no r.accessToken).reposGetContent r.owner r.repo r.filePath
        = Except.ok (ContentData.single "file" ct) ∧
      res = { contents := [{ uri := uri, text := decode (ct.getD ""),
                             mimeType := some r.mimeType, title := some r.fileName,
                             description := none, size := some r.fileSize }] } := by
  simp only [FileResource.handler] at h
  cases hgc : (no r.accessToken).reposGetContent r.owner r.repo r.filePath with
  | error e => rw [hgc] at h; simp at h
  | ok data =>
    rw [hgc] at h
    cases data with
    | dir en => simp at h
    | single ty ct =>
      by_cases hty : ty = "file"
      · subst hty
        simp at h
        exact ⟨ct, rfl, h.symm⟩
      · simp [hty] at h

/-! ## Claims -/

/-- C2 (amended): media type inference is pure and total. For every filename
of the form `base ++ "." ++ ext` (i.e. having a dot, `ext` the substring
after the last one): when the lower-cased `ext` is a key of the fixed table
the mapped type is returned exactly (so the result is invariant under the
case of the extension, `.TS` and `.ts` mapping identically), and when it is
not a key the generic `application/octet-stream` is returned. For a filename
with no `.` at all, the entire lower-cased filename is looked up in the
table — it is NOT unconditionally mapped to `application/octet-stream`. -/
theorem getMimeType_characterization :
    (∀ base ext v, '.' ∉ ext.data → mimeTypes (jsToLower ext) = some v →
        getMimeType (base ++ "." ++ ext) = v) ∧
    (∀ base ext, '.' ∉ ext.data → mimeTypes (jsToLower ext) = none →
        getMimeType (base ++ "." ++ ext) = "application/octet-stream") ∧
    (∀ f, '.' ∉ f.data →
        getMimeType f = (mimeTypes (jsToLower f)).getD "application/octet-stream") := by
  refine ⟨?_, ?_, ?_⟩
  · intro base ext v hdot hv
    rw [getMimeType_of_getLast? _ ext
      (jsSplit_getLast?_suffix '.' base ext "." rfl hdot), hv]
    rfl
  · intro base ext hdot hv
    rw [getMimeType_of_getLast? _ ext
      (jsSplit_getLast?_suffix '.' base ext "." rfl hdot), hv]
    rfl
  · intro f hdot
    exact getMimeType_of_getLast? f f (jsSplit_getLast?_no_sep '.' f hdot)

/-- C2 counterexample: the filename `"md"` has no `.` (so no extension), yet
`getMimeType` returns `text/markdown`, not `application/octet-stream`: the
code looks up the whole dot-free filename in the table. -/
theorem getMimeType_no_dot_counterexample :
    getMimeType "md" = "text/markdown" ∧
    getMimeType "md" ≠ "application/octet-stream" := by
  exact ⟨by decide, by decide⟩

/-- C2 witness: the amended characterization applied at `"a" ++ "." ++ "TS"`
(upper-case extension) yields `text/typescript`. -/
theorem getMimeType_characterization_witness :
    getMimeType ("a" ++ "." ++ "TS") = "text/typescript" :=
  getMimeType_characterization.1 "a" "TS" "text/typescript"
    (by decide) (by decide)

/-- C10: splitting any path string on `/` always has a last segment (JS
`pop()` is `undefined` only on an empty array, and `split` never returns
one), and the leaf name computed in `listFiles` equals that literal last
segment — so the `"unknown"` fallback is unreachable, and a produced entry
is named `"unknown"` only when its path's final segment is literally that
string. -/
theorem itemName_no_fallback :
    ∀ p : String, ∃ seg, (jsSplit '/' p).getLast? = some seg ∧ itemName p = seg := by
  intro p
  obtain ⟨seg, hs⟩ := jsSplit_getLast?_isSome '/' p
  exact ⟨seg, hs, by simp [itemName, hs]⟩

/-- C5: a descriptor's `name` equals the full path, its `title` the leaf
file name, and its `uri` is `github://file/` followed by the exact path; in
particular, a blob tree item at path `a/b/c` (with slash-free leaf `c`)
passes the filter and yields a descriptor titled `c` with URI
`github://file/a/b/c`. -/
theorem descriptor_fields :
    (∀ (tok owner repo p n : String) (sz : Nat),
        (FileResource.mk tok owner repo p n sz).name = p ∧
        (FileResource.mk tok owner repo p n sz).title = n ∧
        (FileResource.mk tok owner repo p n sz).uri = "github://file/" ++ p) ∧
    (∀ (a b c : String), '/' ∉ c.data →
      ∀ (tok owner repo : String) (osz : Option Nat),
        ∃ e : FileEntry,
          processTree [⟨"blob", some (a ++ "/" ++ b ++ "/" ++ c), osz⟩] = [e] ∧
          e.path = a ++ "/" ++ b ++ "/" ++ c ∧
          e.name = c ∧
          (FileResource.mk tok owner repo e.path e.name e.size).title = c ∧
          (FileResource.mk tok owner repo e.path e.name e.size).name
            = a ++ "/" ++ b ++ "/" ++ c ∧
          (FileResource.mk tok owner repo e.path e.name e.size).uri
            = "github://file/" ++ (a ++ "/" ++ b ++ "/" ++ c)) := by
  constructor
  · intro tok owner repo p n sz
    exact ⟨rfl, rfl, rfl⟩
  · intro a b c h tok owner repo osz
    have hsl : ("/" : String).data = ['/'] := rfl
    have hpd : (a ++ "/" ++ b ++ "/" ++ c).data
        = a.data ++ '/' :: (b.data ++ '/' :: c.data) := by
      simp [string_data_append, hsl]
    have hp : (a ++ "/" ++ b ++ "/" ++ c) ≠ "" := by
      intro hcon
      have hd := congrArg String.data hcon
      rw [hpd] at hd
      simp at hd
    have hname : itemName (a ++ "/" ++ b ++ "/" ++ c) = c :=
      itemName_suffix (a ++ "/" ++ b) c h
    refine ⟨⟨a ++ "/" ++ b ++ "/" ++ c, c, osz.getD 0⟩,
      ?_, rfl, rfl, rfl, rfl, rfl⟩
    simp [processTree, strTruthy, hp, hname]

/-- C5 witness: the pipeline fact at the concrete path `a/b/c.ext`. -/
theorem descriptor_fields_witness :
    ∃ e : FileEntry,
      processTree [⟨"blob", some ("a" ++ "/" ++ "b" ++ "/" ++ "c.ext"), some 7⟩]
        = [e] ∧
      e.path = "a" ++ "/" ++ "b" ++ "/" ++ "c.ext" ∧
      e.name = "c.ext" ∧
      (FileResource.mk "tok" "o" "r" e.path e.name e.size).title = "c.ext" ∧
      (FileResource.mk "tok" "o" "r" e.path e.name e.size).name
        = "a" ++ "/" ++ "b" ++ "/" ++ "c.ext" ∧
      (FileResource.mk "tok" "o" "r" e.path e.name e.size).uri
        = "github://file/" ++ ("a" ++ "/" ++ "b" ++ "/" ++ "c.ext") :=
  descriptor_fields.2 "a" "b" "c.ext" (by decide) "tok" "o" "r" (some 7)

/-- C6: an entry is in the output of the tree filter+map exactly when it
comes from an item of type `"blob"` with a defined non-empty path (so every
item of another type — tree, commit, ... — is excluded), and it then carries
that path, the path's last segment as its leaf name, and the reported size
or `0` when the size is unreported. -/
theorem processTree_mem_iff :
    ∀ (items : List TreeItem) (e : FileEntry),
      e ∈ processTree items ↔
        ∃ it ∈ items, it.type = "blob" ∧ ∃ p, it.path = some p ∧ p ≠ "" ∧
          e = ⟨p, itemName p, it.size.getD 0⟩ := by
  intro items e
  unfold processTree
  simp only [List.mem_map, List.mem_filter]
  constructor
  · rintro ⟨it, ⟨hmem, hcond⟩, rfl⟩
    simp only [Bool.and_eq_true, beq_iff_eq] at hcond
    obtain ⟨hty, htr⟩ := hcond
    cases hpath : it.path with
    | none => rw [hpath] at htr; simp [strTruthy] at htr
    | some p =>
      rw [hpath] at htr
      have hp : p ≠ "" := by simpa [strTruthy] using htr
      exact ⟨it, hmem, hty, p, hpath, hp, by simp [hpath]⟩
  · rintro ⟨it, hmem, hty, p, hpath, hp, rfl⟩
    refine ⟨it, ⟨hmem, ?_⟩, ?_⟩
    · simp [Bool.and_eq_true, beq_iff_eq, hty, hpath, strTruthy, hp]
    · simp [hpath]

/-- C1: enumeration never throws to its caller: `createFileResources` is a
total function into descriptor lists for every credential, configuration
and remote-call oracle, and whenever its try-block raises (any failing
remote call) the outer catch converts the outcome to the empty list. -/
theorem createFileResources_never_throws :
    ∀ (no : String → Octokit) (tok : String) (env : Env),
      ∃ l : List FileResource, createFileResources no tok env = l ∧
        (∀ e, createFileResourcesBody no tok env = Except.error e → l = []) := by
  intro no tok env
  unfold createFileResources
  cases hb : createFileResourcesBody no tok env with
  | ok l => exact ⟨l, rfl, fun e he => Except.noConfusion he⟩
  | error e => exact ⟨[], rfl, fun _ _ => rfl⟩

/-- C1 witness: with an oracle whose every remote call throws, enumeration
of a well-formed repository identifier returns the empty list. -/
theorem createFileResources_never_throws_witness :
    createFileResources failingNewOctokit "tok" envValid = [] := by
  obtain ⟨l, hl, he⟩ :=
    createFileResources_never_throws failingNewOctokit "tok" envValid
  rw [hl]
  exact he "network error" rfl

/-- C4: for every malformed repository identifier — absent, without a `/`,
with two or more `/`, or with an empty owner or name — enumeration returns
the empty list (and, being a total function, does not raise). -/
theorem createFileResources_malformed_empty :
    ∀ (no : String → Octokit) (tok : String) (env : Env),
      (env.SOURCE_REPOSITORY_NAME = none →
        createFileResources no tok env = []) ∧
      (∀ s, env.SOURCE_REPOSITORY_NAME = some s → '/' ∉ s.data →
        createFileResources no tok env = []) ∧
      (∀ x y z, env.SOURCE_REPOSITORY_NAME = some (x ++ "/" ++ y ++ "/" ++ z) →
        createFileResources no tok env = []) ∧
      (∀ o r, env.SOURCE_REPOSITORY_NAME = some (o ++ "/" ++ r) →
        '/' ∉ o.data → '/' ∉ r.data → (o = "" ∨ r = "") →
        createFileResources no tok env = []) := by
  intro no tok env
  have hsl : ("/" : String).data = ['/'] := rfl
  refine ⟨?_, ?_, ?_, ?_⟩
  · intro hnone
    unfold createFileResources createFileResourcesBody
    simp [hnone, strTruthy]
  · intro s hs hslash
    apply createFileResources_of_repoMatch_none
    rw [hs]
    have hsplit : jsSplit '/' s = [s] := by
      unfold jsSplit
      rw [splitOnSep_not_mem '/' s.data hslash]
      simp [asString_data]
    show repoMatch s = none
    unfold repoMatch
    rw [hsplit]
  · intro x y z hs
    apply createFileResources_of_repoMatch_none
    rw [hs]
    show repoMatch (x ++ "/" ++ y ++ "/" ++ z) = none
    apply repoMatch_none_of_length
    have hpd : (x ++ "/" ++ y ++ "/" ++ z).data
        = x.data ++ '/' :: (y.data ++ '/' :: z.data) := by
      simp [string_data_append, hsl]
    unfold jsSplit
    rw [hpd, splitOnSep_append, splitOnSep_append]
    have h1 := List.length_pos.mpr (splitOnSep_ne_nil '/' x.data)
    have h2 := List.length_pos.mpr (splitOnSep_ne_nil '/' y.data)
    have h3 := List.length_pos.mpr (splitOnSep_ne_nil '/' z.data)
    simp only [List.length_map, List.length_append]
    omega
  · intro o r hs ho hr hor
    apply createFileResources_of_repoMatch_none
    rw [hs]
    have hpd : (o ++ "/" ++ r).data = o.data ++ '/' :: r.data := by
      simp [string_data_append, hsl]
    have hsplit : jsSplit '/' (o ++ "/" ++ r) = [o, r] := by
      unfold jsSplit
      rw [hpd, splitOnSep_append, splitOnSep_not_mem '/' o.data ho,
        splitOnSep_not_mem '/' r.data hr]
      simp [asString_data]
    show repoMatch (o ++ "/" ++ r) = none
    unfold repoMatch
    rw [hsplit]
    have hno : ¬ (o ≠ "" ∧ r ≠ "") := by
      rcases hor with h | h <;> simp [h]
    simp [hno]

/-- C4 witness: the identifier `"a/b/c"` (two separators) yields the empty
list. -/
theorem createFileResources_malformed_empty_witness :
    createFileResources failingNewOctokit "tok" envMultiSlash = [] :=
  ((createFileResources_malformed_empty failingNewOctokit "tok"
      envMultiSlash).2.2.1) "a" "b" "c" (by decide)

/-- C3 (amended): `handler` fails exactly when the fetched data is not a
single entry of type `"file"` (array response or other entry type) or the
remote call itself throws; in every failure case the outcome is one
normalized `Failed to read file: ...` error that propagates to the caller
as the result (it is not swallowed). The message names the offending path
in the not-a-file case and carries the underlying cause in the
remote-failure case — in the latter case it does not name the path. -/
theorem handler_failure_modes :
    ∀ (no : String → Octokit) (decode : String → String)
      (r : FileResource) (uri : String),
      ((∃ m, FileResource.handler no decode r uri = Except.error m) ↔
        (∃ e, (no r.accessToken).reposGetContent r.owner r.repo r.filePath
            = Except.error e) ∨
        (∃ en, (no r.accessToken).reposGetContent r.owner r.repo r.filePath
            = Except.ok (ContentData.dir en)) ∨
        (∃ ty ct, (no r.accessToken).reposGetContent r.owner r.repo r.filePath
            = Except.ok (ContentData.single ty ct) ∧ ty ≠ "file")) ∧
      (∀ e, (no r.accessToken).reposGetContent r.owner r.repo r.filePath
          = Except.error e →
        FileResource.handler no decode r uri
          = Except.error ("Failed to read file: " ++ e)) ∧
      (∀ en, (no r.accessToken).reposGetContent r.owner r.repo r.filePath
          = Except.ok (ContentData.dir en) →
        FileResource.handler no decode r uri
          = Except.error
              ("Failed to read file: " ++ ("Path " ++ r.filePath ++ " is not a file"))) ∧
      (∀ ty ct, (no r.accessToken).reposGetContent r.owner r.repo r.filePath
          = Except.ok (ContentData.single ty ct) → ty ≠ "file" →
        FileResource.handler no decode r uri
          = Except.error
              ("Failed to read file: " ++ ("Path " ++ r.filePath ++ " is not a file"))) := by
  intro no decode r uri
  refine ⟨⟨?_, ?_⟩, ?_, ?_, ?_⟩
  · intro ⟨m, hm⟩
    simp only [FileResource.handler] at hm
    cases hgc : (no r.accessToken).reposGetContent r.owner r.repo r.filePath with
    | error e => exact Or.inl ⟨e, rfl⟩
    | ok data =>
      rw [hgc] at hm
      cases data with
      | dir en => exact Or.inr (Or.inl ⟨en, rfl⟩)
      | single ty ct =>
        by_cases hty : ty = "file"
        · subst hty; simp at hm
        · exact Or.inr (Or.inr ⟨ty, ct, rfl, hty⟩)
  · intro h
    rcases h with ⟨e, he⟩ | ⟨en, hen⟩ | ⟨ty, ct, hty, hne⟩
    · exact ⟨_, by simp only [FileResource.handler]; rw [he]⟩
    · exact ⟨_, by simp only [FileResource.handler]; rw [hen]⟩
    · exact ⟨"Failed to read file: " ++ ("Path " ++ r.filePath ++ " is not a file"),
        by simp only [FileResource.handler]; rw [hty]; simp [hne]⟩
  · intro e he
    simp only [FileResource.handler]
    rw [he]
  · intro en hen
    simp only [FileResource.handler]
    rw [hen]
  · intro ty ct hty hne
    simp only [FileResource.handler]
    rw [hty]
    simp [hne]

/-- C3 counterexample: on a remote failure with cause `network error`, the
normalized error message does not contain the offending path `a.txt` — the
path is named only in the not-a-file case, contrary to the claim that both
cases name it. -/
theorem handler_error_lacks_path :
    FileResource.handler failingNewOctokit idDecode sampleResource "u"
      = Except.error "Failed to read file: network error" ∧
    ¬ (sampleResource.filePath.data <:+:
        ("Failed to read file: network error" : String).data) := by
  exact ⟨rfl, by decide⟩

/-- C3 witness: the remote-failure clause at a concrete failing oracle. -/
theorem handler_failure_modes_witness :
    FileResource.handler failingNewOctokit hiDecode sampleResource "u"
      = Except.error ("Failed to read file: " ++ "network error") :=
  ((handler_failure_modes failingNewOctokit hiDecode sampleResource "u").2.1)
    "network error" rfl

/-- C7: every successful `handler` call returns exactly one content record,
and that record carries the requested URI, the decoded text of the fetched
body, the descriptor's title, the inferred media type, and the size. -/
theorem handler_success_record :
    ∀ (no : String → Octokit) (decode : String → String)
      (r : FileResource) (uri : String) (res : HandlerResult),
      FileResource.handler no decode r uri = Except.ok res →
      ∃ ct, (no r.accessToken).reposGetContent r.owner r.repo r.filePath
          = Except.ok (ContentData.single "file" ct) ∧
        res.contents = [{ uri := uri, text := decode (ct.getD ""),
                          mimeType := some r.mimeType, title := some r.fileName,
                          description := none, size := some r.fileSize }] ∧
        res.contents.length = 1 := by
  intro no decode r uri res h
  obtain ⟨ct, hgc, hres⟩ := handler_ok_inv no decode r uri res h
  exact ⟨ct, hgc, by rw [hres], by simp [hres]⟩

/-- C7 witness: the record produced for `sampleResource` from a single-file
response with body `aGVsbG8=` under the identity decoder. -/
theorem handler_success_record_witness :
    ∃ ct, (fileContentNewOctokit sampleResource.accessToken).reposGetContent
        sampleResource.owner sampleResource.repo sampleResource.filePath
        = Except.ok (ContentData.single "file" ct) ∧
      sampleHandlerResult.contents
        = [{ uri := "u", text := idDecode (ct.getD ""),
             mimeType := some sampleResource.mimeType,
             title := some sampleResource.fileName,
             description := none, size := some sampleResource.fileSize }] ∧
      sampleHandlerResult.contents.length = 1 :=
  handler_success_record fileContentNewOctokit idDecode sampleResource "u"
    sampleHandlerResult rfl

/-- C8: when the single-file response has no `content` field, `handler` does
not fail: given that the decoder maps `""` to `""` (as Node's base64/utf-8
decode does), it returns one record whose text is the empty string. -/
theorem handler_missing_content :
    ∀ (no : String → Octokit) (decode : String → String)
      (r : FileResource) (uri : String),
      (no r.accessToken).reposGetContent r.owner r.repo r.filePath
        = Except.ok (ContentData.single "file" none) →
      decode "" = "" →
      FileResource.handler no decode r uri = Except.ok
        { contents := [{ uri := uri, text := "",
                         mimeType := some r.mimeType, title := some r.fileName,
                         description := none, size := some r.fileSize }] } := by
  intro no decode r uri hgc hdec
  simp only [FileResource.handler]
  rw [hgc]
  simp [hdec]

/-- C8 witness: a bodyless single-file response under the identity decoder
yields a record with empty text. -/
theorem handler_missing_content_witness :
    FileResource.handler fileNoContentNewOctokit idDecode sampleResource "u"
      = Except.ok
        { contents := [{ uri := "u", text := "",
                         mimeType := some sampleResource.mimeType,
                         title := some sampleResource.fileName,
                         description := none,
                         size := some sampleResource.fileSize }] } :=
  handler_missing_content fileNoContentNewOctokit idDecode sampleResource "u"
    rfl rfl

/-- C9: in every record a successful `handler` call returns, the size field
is the descriptor's enumeration-time `fileSize` — for every decoder output,
i.e. it is never recomputed from the freshly fetched text, so it can
disagree with the actual content length. -/
theorem handler_size_from_enumeration :
    ∀ (no : String → Octokit) (decode : String → String)
      (r : FileResource) (uri : String) (res : HandlerResult)
      (rec : ContentRecord),
      FileResource.handler no decode r uri = Except.ok res →
      rec ∈ res.contents →
      rec.size = some r.fileSize := by
  intro no decode r uri res rec h hmem
  obtain ⟨ct, hgc, hres⟩ := handler_ok_inv no decode r uri res h
  rw [hres] at hmem
  simp at hmem
  rw [hmem]

/-- C9 witness: the record for a 5-byte descriptor whose fetched text is
empty still reports size 5. -/
theorem handler_size_from_enumeration_witness :
    sampleRecord.size = some sampleResource.fileSize :=
  handler_size_from_enumeration fileNoContentNewOctokit idDecode sampleResource
    "u" { contents := [sampleRecord] } sampleRecord rfl (by simp)

end FilesTs
